import Mathlib

/-!
Shallow embedding of `hymm_sp/sample_batch.py` (the `main` function), the batch
orchestration pipeline of HunyuanCustom.  Tensors are modelled by their shapes:
every claim under study concerns shapes, derived geometry, control flow, the
codec tiling flag, the replica partition, or the filesystem effects of the
emission step; value-level operations (`mul_` by the codec scaling factor,
`torch.autocast`) do not change shapes and are recorded as comments at the
corresponding points.  The reference-tensor rescale formula of line 63 is the
one value-level map a claim quantifies over, embedded separately over `ℚ`.
-/

namespace HymmSP

/-- Shape of a 5-D tensor `(batch, channel, time, height, width)`, the layout
`b c t h w` used throughout `sample_batch.py`. -/
structure Shape5 where
  b : Nat
  c : Nat
  t : Nat
  h : Nat
  w : Nat
deriving DecidableEq

/-- Shape of a 4-D tensor `(batch, channel, height, width)`: the raw reference
image `pixel_value_ref` before the `rearrange` of line 64. -/
structure Shape4 where
  b : Nat
  c : Nat
  h : Nat
  w : Nat
deriving DecidableEq

/-- Line 64: `rearrange(pixel_value_ref, "b c h w -> b c 1 h w")` — insert a
temporal axis of size 1. -/
def refForVae (s : Shape4) : Shape5 :=
  ⟨s.b, s.c, 1, s.h, s.w⟩

/-- The fields of the parsed run configuration `args` that the orchestration
core of `main` reads or writes (lines 27, 43-45, 69, 77-78, 84-85, 89, 98,
100, 109-120).  `video_size` and `sample_n_frames` are `Int` so that the
derived-geometry formula `(t - 1) * 4 + 1` of line 78 keeps Python's integer
semantics for every latent shape. -/
structure Args where
  video_condition : Bool
  audio_condition : Bool
  save_path : String
  save_path_suffix : String
  add_pos_prompt : String
  add_neg_prompt : String
  video_size : Int × Int
  sample_n_frames : Int
  num_images : Nat
deriving DecidableEq

/-- One conditioning record as produced by the data loader (lines 52-61),
at shape level.  `pixel_value_bg` and `pixel_value_mask` are supplied by the
dataset exactly when the run is video-conditioned and are read only on that
branch (lines 70-73); `audio_prompts` presence and `audio_path` are supplied
by the audio dataset (lines 60-61). -/
structure Batch where
  prompt : String
  negative_prompt : String
  name : String
  data_name : String
  seed : Int
  pixel_value_ref : Shape4
  pixel_value_bg : Shape5
  pixel_value_mask : Shape5
  audio_prompts_present : Bool
  audio_path : Option String
deriving DecidableEq

/-- The latent codec (`hunyuan_video_sampler.vae`) at shape level: `encode`
maps an input shape to the latent shape of `encode(x).latent_dist.sample()`,
or `none` when the encode call raises.  The tiling toggle and the scaling
factor act on codec state and tensor values, not shapes, and are modelled at
the call sites. -/
structure Codec where
  encode : Shape5 → Option Shape5

/-- Error raised during latent preparation: an encode call failing, or the
`torch.cat` of line 74 rejecting incompatible shapes. -/
inductive CodecErr where
  | encodeError
  | catError
deriving DecidableEq

/-- Line 74: `torch.cat([bg_latents, mask_latents], dim=1)` — concatenation
along the channel axis succeeds iff every other dimension agrees, and sums
the channel counts. -/
def catDim1 (s1 s2 : Shape5) : Option Shape5 :=
  if s1.b = s2.b ∧ s1.t = s2.t ∧ s1.h = s2.h ∧ s1.w = s2.w then
    some ⟨s1.b, s1.c + s2.c, s1.t, s1.h, s1.w⟩
  else
    none

/-- The latent bundle carried from latent preparation into the request. -/
structure LatentBundle where
  ref_latents : Shape5
  uncond_ref_latents : Shape5
  bg_latents : Option Shape5
deriving DecidableEq

/-- Operations performed on the codec during one record's latent preparation,
in order, for stating how the tiling toggle brackets the encode calls. -/
inductive VaeOp where
  | enableTiling
  | encodeCall
  | disableTiling
deriving DecidableEq

/-- Result of the latent-preparation scope (lines 63-83): the bundle and the
(possibly mutated) `args` on success or the raised error, the tiling flag at
the moment control leaves the scope, and the codec operations performed. -/
structure PrepResult where
  out : Except CodecErr (LatentBundle × Args)
  tiling : Bool
  ops : List VaeOp

/-- Lines 63-83 of `main`, one record's latent preparation.
Line 66 enables tiling; lines 67-68 encode the reference and an all-ones
tensor of the same shape; on the video-conditioned branch lines 70-74 encode
the background clip and the mask and concatenate along the channel axis
(line 75 scales values, shape unchanged), and lines 76-78 overwrite
`args.video_size` and `args.sample_n_frames` in place from the concatenated
latent's shape; lines 81-82 scale the reference latents (shape unchanged);
line 83 disables tiling.  There is no `try/finally`: when an encode or the
concatenation raises, the exception propagates out of the scope at once and
line 83 never runs, so the tiling flag is still `true` on that exit. -/
def prepareLatents (codec : Codec) (args : Args) (batch : Batch) : PrepResult :=
  -- line 66: vae.enable_tiling()
  match codec.encode (refForVae batch.pixel_value_ref) with
  | none => ⟨.error .encodeError, true, [.enableTiling, .encodeCall]⟩
  | some ref_latents =>
    -- line 68: torch.ones_like(pixel_value_ref_for_vae) has the same shape
    match codec.encode (refForVae batch.pixel_value_ref) with
    | none => ⟨.error .encodeError, true, [.enableTiling, .encodeCall, .encodeCall]⟩
    | some uncond_ref_latents =>
      if args.video_condition then
        match codec.encode batch.pixel_value_bg with
        | none =>
          ⟨.error .encodeError, true,
            [.enableTiling, .encodeCall, .encodeCall, .encodeCall]⟩
        | some bg0 =>
          match codec.encode batch.pixel_value_mask with
          | none =>
            ⟨.error .encodeError, true,
              [.enableTiling, .encodeCall, .encodeCall, .encodeCall, .encodeCall]⟩
          | some mask_latents =>
            match catDim1 bg0 mask_latents with
            | none =>
              ⟨.error .catError, true,
                [.enableTiling, .encodeCall, .encodeCall, .encodeCall, .encodeCall]⟩
            | some bg_latents =>
              -- line 75: bg_latents.mul_(scaling_factor) — values only
              -- lines 76-78: _, _, t, h, w = bg_latents.shape; overwrite args
              let args' :=
                { args with
                    video_size := ((bg_latents.h : Int) * 8, (bg_latents.w : Int) * 8),
                    sample_n_frames := ((bg_latents.t : Int) - 1) * 4 + 1 }
              -- lines 81-82: scale ref latents (values only); line 83: disable
              ⟨.ok (⟨ref_latents, uncond_ref_latents, some bg_latents⟩, args'), false,
                [.enableTiling, .encodeCall, .encodeCall, .encodeCall, .encodeCall,
                  .disableTiling]⟩
      else
        -- line 80: bg_latents = None; lines 81-83 as above
        ⟨.ok (⟨ref_latents, uncond_ref_latents, none⟩, args), false,
          [.enableTiling, .encodeCall, .encodeCall, .disableTiling]⟩

/-- The generation request handed to `hunyuan_video_sampler.predict`
(lines 86-107), restricted to the fields the claims quantify over; the
remaining scalar parameters (guidance scale, inference steps, flow shift,
schedule flags, audio strength) are copied verbatim from `args` in the same
way `num_images` is. -/
structure Request where
  prompt : String
  negative_prompt : String
  size : Int × Int
  seed : Int
  ref_latents : Shape5
  uncond_ref_latents : Shape5
  bg_latents : Option Shape5
  audio_prompts_present : Bool
  video_length : Int
  num_images : Nat
deriving DecidableEq

/-- Lines 84-107: prompt prefixes applied, then the request assembled from the
(possibly mutated) `args` and the latent bundle. -/
def buildRequest (args : Args) (batch : Batch) (bundle : LatentBundle) : Request :=
  { prompt := args.add_pos_prompt ++ batch.prompt
    negative_prompt := args.add_neg_prompt ++ batch.negative_prompt
    size := args.video_size
    seed := batch.seed
    ref_latents := bundle.ref_latents
    uncond_ref_latents := bundle.uncond_ref_latents
    bg_latents := bundle.bg_latents
    audio_prompts_present := batch.audio_prompts_present
    video_length := args.sample_n_frames
    num_images := args.num_images }

/-- Lines 63-107 for one record: latent preparation followed by the request
build, threading the in-place mutation of `args`.  When preparation raises,
the exception propagates and no request is ever built. -/
def recordRequest (codec : Codec) (args : Args) (batch : Batch) :
    Except CodecErr (Request × Args) :=
  match (prepareLatents codec args batch).out with
  | .error e => .error e
  | .ok (bundle, args') => .ok (buildRequest args' batch bundle, args')

/-- Line 27: `save_path = args.save_path if args.save_path_suffix == "" else
f"{args.save_path}_{args.save_path_suffix}"` — the directory the emission
step writes into. -/
def savePathUsed (base suffix : String) : String :=
  if suffix = "" then base else base ++ "_" ++ suffix

/-- The filesystem as the list of existing paths (directories and files). -/
def fsInsert (fs : List String) (p : String) : List String :=
  if p ∈ fs then fs else p :: fs

/-- Removal of a path from the filesystem (the `rm` of line 117). -/
def fsRemove (fs : List String) (p : String) : List String :=
  fs.filter (fun q => decide (q ≠ p))

/-- Lines 28-29: `if not os.path.exists(args.save_path):
os.makedirs(save_path, exist_ok=True)` — note the existence test is on the
BASE path `args.save_path` while the directory created is the derived
`save_path`. -/
def ensureSaveDir (fs : List String) (base suffix : String) : List String :=
  if base ∈ fs then fs else fsInsert fs (savePathUsed base suffix)

/-- Lines 111-117 for one generated sample of an audio-conditioned record
with a resolvable audio path, acting on the filesystem.  `muxOk` is the exit
status of the external `ffmpeg` invocation; the `rm '{out_path}'` in the
shell command of line 117 is sequenced with `;`, so it runs whether or not
`ffmpeg` succeeded. -/
def emitAudioSample (fs : List String) (save_path save_name audio_path : String)
    (muxOk : Bool) : List String :=
  let out_path := save_path ++ "/" ++ save_name ++ ".mp4"
  let out_audio_path := save_path ++ "/" ++ save_name ++ "_audio.mp4"
  -- line 114: save_videos_grid writes the silent video
  let fs1 := fsInsert fs out_path
  -- line 117: ffmpeg produces the muxed container when it succeeds
  let fs2 := if muxOk then fsInsert fs1 out_audio_path else fs1
  -- line 117: `; rm '{out_path}'` — unconditional
  fsRemove fs2 out_path

/-- Observable events of one record's processing: the collective `predict`
call of line 86, and the filesystem effects of the emission block
(lines 109-120). -/
inductive Event where
  | generate
  | write (path : String)
  | mux (videoIn audioIn outPath : String)
  | remove (path : String)
deriving DecidableEq

/-- Whether an event is a filesystem write (anything but the `predict` call). -/
def Event.isFsWrite : Event → Bool
  | .generate => false
  | _ => true

/-- Number of `predict` invocations recorded in a trace. -/
def countGenerate : List Event → Nat
  | [] => 0
  | .generate :: es => countGenerate es + 1
  | _ :: es => countGenerate es

/-- The body of the per-sample loop of lines 111-120, iterated once per
generated sample (`for i, sample in enumerate(samples)`). -/
def emitEventsOnce (save_path save_name : String) (audio_condition : Bool)
    (audio_path : Option String) : List Event :=
  let out_path := save_path ++ "/" ++ save_name ++ ".mp4"
  match audio_condition, audio_path with
  | true, some ap =>
    let out_audio_path := save_path ++ "/" ++ save_name ++ "_audio.mp4"
    [.write out_path, .mux out_path ap out_audio_path, .remove out_path]
  | _, _ => [.write out_path]

/-- The emission block events for `n` generated samples. -/
def emitEventsN (block : List Event) : Nat → List Event
  | 0 => []
  | n + 1 => block ++ emitEventsN block n

/-- Lines 63-120 for one record as an event trace: if latent preparation
raises, the exception propagates before line 86 and the trace is empty;
otherwise `predict` is called (on every rank), and only rank 0 executes the
emission block, once per sample in `outputs["samples"]` (whose length is the
requested `num_images_per_prompt`). -/
def recordTrace (codec : Codec) (rank : Nat) (args : Args) (batch : Batch) :
    List Event :=
  match recordRequest codec args batch with
  | .error _ => []
  | .ok (req, args') =>
    .generate ::
      (if rank = 0 then
        emitEventsN
          (emitEventsOnce (savePathUsed args'.save_path args'.save_path_suffix)
            batch.data_name args'.audio_condition batch.audio_path)
          req.num_images
      else [])

/-- The record loop of line 51 restricted to the configuration it threads:
`args` is a single object mutated in place, so the `args` each record reads
is whatever the previous record left behind.  An exception aborts the run. -/
def runArgs (codec : Codec) (args : Args) : List Batch → Except CodecErr Args
  | [] => .ok args
  | b :: bs =>
    match recordRequest codec args b with
    | .error e => .error e
    | .ok (_, args') => runArgs codec args' bs

/-- Index sequence of `torch.utils.data.distributed.DistributedSampler` over a
dataset of length `len` with `shuffle=False`, `drop_last=False` (external
library, modelled from its documented iteration order): indices `0..len-1`
are padded by repetition up to `numSamples * numReplicas` and the replica
takes every `numReplicas`-th entry starting at `rank` (`rank < numReplicas`
is a sampler precondition). -/
def distributedSamplerIndices (len numReplicas rank : Nat) : List Nat :=
  let numSamples := (len + numReplicas - 1) / numReplicas
  let totalSize := numSamples * numReplicas
  let indices := List.range len
  let padded := indices ++ (List.range (totalSize - len)).map (fun i => i % len)
  (List.range numSamples).map (fun i => padded.getD (rank + i * numReplicas) 0)

/-- Lines 49-50: `DistributedSampler(dataset, num_replicas=1, rank=0,
shuffle=False, drop_last=False)` — the record sequence a replica iterates.
The sampler is constructed with the constants `1` and `0` for every replica,
so the run's actual replica count and this replica's index do not enter. -/
def replicaRecords (datasetLen : Nat) (_numReplicas _replicaIndex : Nat) : List Nat :=
  distributedSamplerIndices datasetLen 1 0

/-- Whether an `Except` computation succeeded. -/
def exOk {ε α : Type} : Except ε α → Bool
  | .ok _ => true
  | .error _ => false

/-- A codec whose encode preserves the input shape, used to evaluate the
pipeline on concrete records. -/
def idCodec : Codec := ⟨fun s => some s⟩

/-- A codec whose encode always raises, used to exercise the failing exit
path of the latent-preparation scope. -/
def errCodec : Codec := ⟨fun _ => none⟩

/-- A concrete video-conditioned run configuration. -/
def argsV : Args :=
  { video_condition := true
    audio_condition := false
    save_path := "o"
    save_path_suffix := ""
    add_pos_prompt := "P"
    add_neg_prompt := "N"
    video_size := (720, 1280)
    sample_n_frames := 129
    num_images := 1 }

/-- A concrete image-conditioned run configuration (no background, no audio). -/
def argsI : Args :=
  { argsV with video_condition := false }

/-- A concrete record whose background and mask shapes are compatible for the
channel-axis concatenation. -/
def batchC : Batch :=
  { prompt := "p"
    negative_prompt := "n"
    name := "x"
    data_name := "d"
    seed := 7
    pixel_value_ref := ⟨1, 3, 64, 64⟩
    pixel_value_bg := ⟨1, 3, 9, 40, 64⟩
    pixel_value_mask := ⟨1, 3, 9, 40, 64⟩
    audio_prompts_present := false
    audio_path := none }

/-- A concrete record whose mask shape disagrees with the background shape on
the temporal axis, so the channel-axis concatenation is rejected. -/
def batchBad : Batch :=
  { batchC with pixel_value_mask := ⟨1, 3, 5, 40, 64⟩ }

/-- Line 63: `pixel_value_ref = pixel_value_ref * 2 - 1.` — the rescale of the
reference tensor from `[0,1]` to `[-1,1]`, per component. -/
def rescale (x : ℚ) : ℚ := x * 2 - 1

/-- The inverse mapping `x ↦ (x + 1) / 2` the spec states for the rescale of
line 63 (the spec's words; compared against `rescale` in the round-trip
claim). -/
def rescale_inv (x : ℚ) : ℚ := (x + 1) / 2

theorem mem_fsInsert_self (fs : List String) (p : String) : p ∈ fsInsert fs p := by
  unfold fsInsert
  split
  · assumption
  · exact List.mem_cons_self p fs

theorem not_mem_fsRemove_self (fs : List String) (p : String) : p ∉ fsRemove fs p := by
  intro h
  have h2 := List.mem_filter.mp h
  simp at h2

theorem mem_fsRemove_of_ne (fs : List String) (p q : String) (hq : q ∈ fs)
    (hne : q ≠ p) : q ∈ fsRemove fs p := by
  exact List.mem_filter.mpr ⟨hq, by simpa using hne⟩

theorem muxed_ne_silent (sp sn : String) :
    sp ++ "/" ++ sn ++ "_audio.mp4" ≠ sp ++ "/" ++ sn ++ ".mp4" := by
  intro h
  have h2 := congrArg String.length h
  simp only [String.length_append] at h2
  have e1 : "_audio.mp4".length = 10 := rfl
  have e2 : ".mp4".length = 4 := rfl
  omega

theorem countGenerate_append (a b : List Event) :
    countGenerate (a ++ b) = countGenerate a + countGenerate b := by
  induction a with
  | nil => simp [countGenerate]
  | cons e es ih =>
    cases e <;> simp [countGenerate, ih] <;> omega

theorem countGenerate_emitEventsOnce (sp sn : String) (ac : Bool)
    (ap : Option String) : countGenerate (emitEventsOnce sp sn ac ap) = 0 := by
  cases ac <;> cases ap <;> rfl

theorem countGenerate_emitEventsN (block : List Event)
    (hb : countGenerate block = 0) (n : Nat) :
    countGenerate (emitEventsN block n) = 0 := by
  induction n with
  | zero => rfl
  | succ m ih => simp [emitEventsN, countGenerate_append, hb, ih]

theorem getD_range_of_lt (n i : Nat) (h : i < n) :
    (List.range n).getD i 0 = i := by
  simp [List.getD_eq_getElem?_getD, List.getElem?_range, h]

/-- C9: the reference-tensor rescale `x ↦ x * 2 - 1` of line 63 and the
spec's stated inverse `x ↦ (x + 1) / 2` round-trip exactly on `[-1, 1]`:
each composition is the identity there. -/
theorem rescale_round_trip (x : ℚ) (h1 : -1 ≤ x) (h2 : x ≤ 1) :
    rescale (rescale_inv x) = x ∧ rescale_inv (rescale x) = x := by
  constructor <;> · unfold rescale rescale_inv; ring

theorem rescale_round_trip_witness :
    rescale (rescale_inv (1 / 2)) = 1 / 2 ∧ rescale_inv (rescale (1 / 2)) = 1 / 2 :=
  rescale_round_trip (1 / 2) (by norm_num) (by norm_num)

/-- C6 (code bug): line 28 tests the existence of the BASE path
`args.save_path` but line 29 creates the derived `save_path`; when the base
path already exists, the suffix is non-empty, and the suffixed directory used
for emission is absent, no directory is created at all — evaluated here at
base `"o"` (existing), suffix `"v2"`: the used directory `"o_v2"` is absent
before and still absent after the setup step, contradicting the claim that
the directory used for emission is created if absent. -/
theorem save_dir_not_created_for_suffix :
    savePathUsed "o" "v2" ∉ ["o"] ∧
    savePathUsed "o" "v2" ∉ ensureSaveDir ["o"] "o" "v2" := by
  decide

/-- C2 (counterexample): with 2 cooperating replicas over a dataset of one
record, record 0 is iterated by replica 0 and by replica 1 — the sampler of
line 49 is constructed with `num_replicas=1, rank=0` for every replica, so
the replicas' record sequences overlap and the partition is not disjoint. -/
theorem replica_partition_overlaps :
    0 ∈ replicaRecords 1 2 0 ∧ 0 ∈ replicaRecords 1 2 1 := by
  decide

/-- C2 (amended): every replica receives the full dataset `0 .. len-1` as a
finite, ordered, gap-free sequence — identical across replicas and covering
the dataset, but disjoint across replicas only in the single-replica case,
because line 49 hardcodes `num_replicas=1, rank=0`. -/
theorem replica_receives_full_dataset (n numReplicas replicaIndex : Nat) :
    replicaRecords n numReplicas replicaIndex = List.range n := by
  unfold replicaRecords distributedSamplerIndices
  simp only [Nat.add_sub_cancel, Nat.div_one, Nat.mul_one, Nat.sub_self,
    List.range_zero, List.map_nil, List.append_nil, Nat.zero_add]
  have hcong : ∀ i ∈ List.range n, (List.range n).getD i 0 = i :=
    fun i hi => getD_range_of_lt n i (List.mem_range.mp hi)
  rw [List.map_congr_left hcong, List.map_id']

/-- C5 (counterexample): at save path `"o"`, save name `"d"`, audio
`"a.wav"`, starting from an empty filesystem, a FAILED mux leaves a state in
which the silent intermediate `"o/d.mp4"` does NOT exist — the `rm` in the
shell command of line 117 is sequenced with `;`, not `&&`, so it runs even
when `ffmpeg` exits nonzero, contradicting the claim that the silent file
still exists after a failed mux. -/
theorem failed_mux_deletes_silent :
    ("o" ++ "/" ++ "d" ++ ".mp4") ∉ emitAudioSample [] "o" "d" "a.wav" false := by
  decide

/-- C5 (amended): for every audio-conditioned record with a resolvable audio
path, after ANY mux attempt — successful or failed — the silent intermediate
no longer exists (the deletion is unconditional), and the muxed file exists
after a successful mux. -/
theorem mux_removes_silent_unconditionally (fs : List String)
    (sp sn ap : String) (muxOk : Bool) :
    (sp ++ "/" ++ sn ++ ".mp4") ∉ emitAudioSample fs sp sn ap muxOk ∧
    (muxOk = true →
      (sp ++ "/" ++ sn ++ "_audio.mp4") ∈ emitAudioSample fs sp sn ap muxOk) := by
  constructor
  · simp only [emitAudioSample]
    exact not_mem_fsRemove_self _ _
  · intro hm
    subst hm
    simp only [emitAudioSample, if_true]
    exact mem_fsRemove_of_ne _ _ _ (mem_fsInsert_self _ _) (muxed_ne_silent sp sn)

theorem mux_removes_silent_unconditionally_witness :
    ("o" ++ "/" ++ "d" ++ ".mp4") ∉ emitAudioSample [] "o" "d" "a.wav" true ∧
    ("o" ++ "/" ++ "d" ++ "_audio.mp4") ∈ emitAudioSample [] "o" "d" "a.wav" true := by
  have h := mux_removes_silent_unconditionally [] "o" "d" "a.wav" true
  exact ⟨h.1, h.2 rfl⟩

/-- C4 (counterexample): with a codec whose encode raises, latent preparation
exits with the error while the tiling flag is still enabled — line 83's
`disable_tiling()` is not guarded by `try/finally`, so the raising exit path
leaves tiling on, contradicting the claim that tiling is disabled on every
exit path including encode failure. -/
theorem tiling_left_enabled_on_failure :
    (prepareLatents errCodec argsI batchC).out = Except.error CodecErr.encodeError ∧
    (prepareLatents errCodec argsI batchC).tiling = true :=
  ⟨rfl, rfl⟩

/-- C4 (amended): tiling is enabled before any encode call; on the normal
exit path of the latent-preparation scope it is disabled (so a run of
successfully processed records never carries tiling state from one record to
the next); but when an encode call or the concatenation raises, the disable
call is skipped and tiling is left enabled as the exception propagates. -/
theorem tiling_scoped_normal_path_only (codec : Codec) (args : Args) (batch : Batch) :
    (∃ rest, (prepareLatents codec args batch).ops = VaeOp.enableTiling :: rest) ∧
    (∀ out, (prepareLatents codec args batch).out = Except.ok out →
      (prepareLatents codec args batch).tiling = false ∧
      VaeOp.disableTiling ∈ (prepareLatents codec args batch).ops) ∧
    (∀ e, (prepareLatents codec args batch).out = Except.error e →
      (prepareLatents codec args batch).tiling = true) := by
  unfold prepareLatents
  cases h1 : codec.encode (refForVae batch.pixel_value_ref) with
  | none => simp [h1]
  | some s1 =>
    by_cases hv : args.video_condition
    · cases h2 : codec.encode batch.pixel_value_bg with
      | none => simp [h1, h2, hv]
      | some s2 =>
        cases h3 : codec.encode batch.pixel_value_mask with
        | none => simp [h1, h2, h3, hv]
        | some s3 =>
          cases h4 : catDim1 s2 s3 with
          | none => simp [h1, h2, h3, h4, hv]
          | some s4 => simp [h1, h2, h3, h4, hv]
    · simp [h1, hv]

theorem tiling_scoped_normal_path_only_witness :
    ((prepareLatents idCodec argsI batchC).tiling = false ∧
      VaeOp.disableTiling ∈ (prepareLatents idCodec argsI batchC).ops) ∧
    (prepareLatents errCodec argsI batchC).tiling = true := by
  have h := tiling_scoped_normal_path_only idCodec argsI batchC
  have h2 := tiling_scoped_normal_path_only errCodec argsI batchC
  exact ⟨h.2.1 _ rfl, h2.2.2 CodecErr.encodeError rfl⟩

theorem catDim1_of_compat (s1 s2 : Shape5) (hb : s1.b = s2.b) (ht : s1.t = s2.t)
    (hh : s1.h = s2.h) (hw : s1.w = s2.w) :
    catDim1 s1 s2 = some ⟨s1.b, s1.c + s2.c, s1.t, s1.h, s1.w⟩ := by
  unfold catDim1
  rw [if_pos ⟨hb, ht, hh, hw⟩]

/-- C1: for a background-conditioned record whose encode and channel-axis
concatenation succeed, the request handed to `predict` carries
`size = (latent_h * 8, latent_w * 8)` and
`video_length = (latent_t - 1) * 4 + 1`, computed from the encoded background
latent shape — whatever `video_size` and `sample_n_frames` the run
configuration held before the record. -/
theorem bg_geometry_overrides_config
    (codec : Codec) (args : Args) (batch : Batch) (sRef sBg sMask : Shape5)
    (hvc : args.video_condition = true)
    (href : codec.encode (refForVae batch.pixel_value_ref) = some sRef)
    (hbg : codec.encode batch.pixel_value_bg = some sBg)
    (hmask : codec.encode batch.pixel_value_mask = some sMask)
    (hb : sBg.b = sMask.b) (ht : sBg.t = sMask.t)
    (hh : sBg.h = sMask.h) (hw : sBg.w = sMask.w) :
    ∃ req args', recordRequest codec args batch = Except.ok (req, args') ∧
      req.size = ((sBg.h : Int) * 8, (sBg.w : Int) * 8) ∧
      req.video_length = ((sBg.t : Int) - 1) * 4 + 1 := by
  simp only [recordRequest, prepareLatents, href, hvc, hbg, hmask,
    catDim1_of_compat sBg sMask hb ht hh hw]
  exact ⟨_, _, rfl, rfl, rfl⟩

theorem bg_geometry_overrides_config_witness :
    ∃ req args', recordRequest idCodec argsV batchC = Except.ok (req, args') ∧
      req.size = ((40 : Int) * 8, (64 : Int) * 8) ∧
      req.video_length = ((9 : Int) - 1) * 4 + 1 :=
  bg_geometry_overrides_config idCodec argsV batchC
    ⟨1, 3, 1, 64, 64⟩ ⟨1, 3, 9, 40, 64⟩ ⟨1, 3, 9, 40, 64⟩
    rfl rfl rfl rfl rfl rfl rfl rfl

/-- C7: for a record in a run without background conditioning, the request
carries exactly the configured `video_size` and `sample_n_frames`, and the
configuration is returned unchanged. -/
theorem no_bg_config_unchanged
    (codec : Codec) (args : Args) (batch : Batch) (sRef : Shape5)
    (hvc : args.video_condition = false)
    (href : codec.encode (refForVae batch.pixel_value_ref) = some sRef) :
    ∃ req, recordRequest codec args batch = Except.ok (req, args) ∧
      req.size = args.video_size ∧ req.video_length = args.sample_n_frames := by
  simp only [recordRequest, prepareLatents, href, hvc]
  exact ⟨_, rfl, rfl, rfl⟩

theorem no_bg_config_unchanged_witness :
    ∃ req, recordRequest idCodec argsI batchC = Except.ok (req, argsI) ∧
      req.size = argsI.video_size ∧ req.video_length = argsI.sample_n_frames :=
  no_bg_config_unchanged idCodec argsI batchC ⟨1, 3, 1, 64, 64⟩ rfl rfl

/-- C10: processing a background-conditioned record overwrites the run-wide
configuration in place — the rest of the run starts from a configuration
whose `video_size` and `sample_n_frames` are the geometry derived from this
record's latents, not the original values; nothing restores them. -/
theorem bg_mutation_persists
    (codec : Codec) (args : Args) (batch : Batch) (rest : List Batch)
    (sRef sBg sMask : Shape5)
    (hvc : args.video_condition = true)
    (href : codec.encode (refForVae batch.pixel_value_ref) = some sRef)
    (hbg : codec.encode batch.pixel_value_bg = some sBg)
    (hmask : codec.encode batch.pixel_value_mask = some sMask)
    (hb : sBg.b = sMask.b) (ht : sBg.t = sMask.t)
    (hh : sBg.h = sMask.h) (hw : sBg.w = sMask.w) :
    runArgs codec args (batch :: rest) =
      runArgs codec
        { args with
            video_size := ((sBg.h : Int) * 8, (sBg.w : Int) * 8),
            sample_n_frames := ((sBg.t : Int) - 1) * 4 + 1 } rest := by
  simp only [runArgs, recordRequest, prepareLatents, href, hvc, hbg, hmask,
    catDim1_of_compat sBg sMask hb ht hh hw, if_true]

theorem bg_mutation_persists_witness :
    runArgs idCodec argsV [batchC] =
      runArgs idCodec
        { argsV with
            video_size := ((40 : Int) * 8, (64 : Int) * 8),
            sample_n_frames := ((9 : Int) - 1) * 4 + 1 } [] :=
  bg_mutation_persists idCodec argsV batchC []
    ⟨1, 3, 1, 64, 64⟩ ⟨1, 3, 9, 40, 64⟩ ⟨1, 3, 9, 40, 64⟩
    rfl rfl rfl rfl rfl rfl rfl rfl

/-- C3: for a record whose latent preparation succeeds, the trace contains
exactly one `predict` invocation on EVERY rank, and every filesystem-write
event in the trace can only occur on rank 0 — the emission block of
lines 109-120 is gated by `if rank == 0` while the `predict` call of line 86
is not. -/
theorem rank_gated_emission (codec : Codec) (rank : Nat) (args : Args)
    (batch : Batch) (hok : exOk (recordRequest codec args batch) = true) :
    countGenerate (recordTrace codec rank args batch) = 1 ∧
    ∀ e ∈ recordTrace codec rank args batch, e.isFsWrite = true → rank = 0 := by
  cases hr : recordRequest codec args batch with
  | error e =>
    rw [hr] at hok
    exact absurd hok (by simp [exOk])
  | ok pr =>
    obtain ⟨req, args'⟩ := pr
    have htr : recordTrace codec rank args batch =
        Event.generate ::
          (if rank = 0 then
            emitEventsN
              (emitEventsOnce (savePathUsed args'.save_path args'.save_path_suffix)
                batch.data_name args'.audio_condition batch.audio_path)
              req.num_images
          else []) := by
      simp only [recordTrace, hr]
    constructor
    · rw [htr]
      simp only [countGenerate]
      by_cases h0 : rank = 0
      · rw [if_pos h0,
          countGenerate_emitEventsN _ (countGenerate_emitEventsOnce _ _ _ _) _]
      · rw [if_neg h0]
        rfl
    · intro e he hw
      by_cases h0 : rank = 0
      · exact h0
      · rw [htr, if_neg h0] at he
        rcases List.mem_cons.mp he with h | h
        · subst h
          simp [Event.isFsWrite] at hw
        · simp at h

theorem rank_gated_emission_witness :
    exOk (recordRequest idCodec argsI batchC) = true ∧
    countGenerate (recordTrace idCodec 1 argsI batchC) = 1 := by
  have h := rank_gated_emission idCodec 1 argsI batchC rfl
  exact ⟨rfl, h.1⟩

/-- C8: for a background-conditioned record whose encoded background and mask
latent shapes are incompatible with the channel-axis concatenation (they
disagree on some non-channel dimension), latent preparation fails with the
concatenation error, no request is built, and no `predict` call occurs for
that record — the trace is empty. -/
theorem incompatible_cat_aborts
    (codec : Codec) (rank : Nat) (args : Args) (batch : Batch)
    (sRef sBg sMask : Shape5)
    (hvc : args.video_condition = true)
    (href : codec.encode (refForVae batch.pixel_value_ref) = some sRef)
    (hbg : codec.encode batch.pixel_value_bg = some sBg)
    (hmask : codec.encode batch.pixel_value_mask = some sMask)
    (hinc : ¬(sBg.b = sMask.b ∧ sBg.t = sMask.t ∧ sBg.h = sMask.h ∧ sBg.w = sMask.w)) :
    recordRequest codec args batch = Except.error CodecErr.catError ∧
    recordTrace codec rank args batch = [] := by
  have hcat : catDim1 sBg sMask = none := by
    unfold catDim1
    rw [if_neg hinc]
  have hreq : recordRequest codec args batch = Except.error CodecErr.catError := by
    simp only [recordRequest, prepareLatents, href, hvc, hbg, hmask, hcat, if_true]
  refine ⟨hreq, ?_⟩
  simp only [recordTrace, hreq]

theorem incompatible_cat_aborts_witness :
    recordRequest idCodec argsV batchBad = Except.error CodecErr.catError ∧
    recordTrace idCodec 0 argsV batchBad = [] :=
  incompatible_cat_aborts idCodec 0 argsV batchBad
    ⟨1, 3, 1, 64, 64⟩ ⟨1, 3, 9, 40, 64⟩ ⟨1, 3, 5, 40, 64⟩
    rfl rfl rfl rfl (by decide)

end HymmSP
